import Mathlib

/-!
# Verification of the JustWork resume-analysis backend

A shallow embedding, in Lean 4, of the parts of the repository that the
specification makes claims about:

* `backend/keyword_extractor.py` — the result cache (`result_cache`,
  `cleanup_cache`, `get_cache_key`, `clear_cache`), the text-truncation logic
  of the prompt assembly, the output-extraction / JSON-repair pipeline of
  `predict_keywords`;
* `backend/data_loader.py` — `load_resumes`: per-file parse skipping, vector
  store build, metadata save;
* `backend/app.py` — the `upload_resumes` endpoint: clearing the data folder,
  per-file validation and saving, vector-store creation.

Python strings are modelled as `List Char` (one element per code point, so
`List.length` agrees with Python `len`).  Python dicts are modelled as
association lists in insertion order, which is how CPython dicts iterate.
External effects (the HuggingFace model, PDF parsing, FAISS, the filesystem)
are inputs: the model's decoded output is a plain string parameter, and the
loader's fallible library calls are fields of an environment record.
-/

set_option autoImplicit false

namespace JustWork

/-- Python strings are modelled as lists of characters. -/
abbrev Str := List Char

/-- The `{` character (written via its code point). -/
def lbrace : Char := Char.ofNat 123

/-- The `}` character (written via its code point). -/
def rbrace : Char := Char.ofNat 125

/-- The `'` character (written via its code point). -/
def squote : Char := Char.ofNat 39

/-- ASCII whitespace stripped by Python `str.strip()` (the ASCII subset;
the Python original also strips non-ASCII Unicode whitespace, which no
string in the claims contains). -/
def isPySpace (c : Char) : Bool :=
  c = ' ' || c = '\t' || c = '\n' || c = '\r' || c = '\x0b' || c = '\x0c'

/-- Python `str.strip()`: drop whitespace from both ends. -/
def pyStrip (s : Str) : Str :=
  ((s.dropWhile isPySpace).reverse.dropWhile isPySpace).reverse

/-- Python `str.lower()` (ASCII case mapping). -/
def pyLower (s : Str) : Str := s.map Char.toLower

/-- `startsWithSeq s pat` is true when `pat` is a prefix of `s`
(Python `str.startswith`). -/
def startsWithSeq : Str → Str → Bool
  | _, [] => true
  | [], _ :: _ => false
  | c :: cs, p :: ps => c == p && startsWithSeq cs ps

/-- `endsWithSeq s pat` is true when `pat` is a suffix of `s`
(Python `str.endswith`). -/
def endsWithSeq (s pat : Str) : Bool :=
  startsWithSeq s.reverse pat.reverse

/-- `containsSeq s pat` is true when `pat` occurs contiguously in `s`
(Python `pat in s`). -/
def containsSeq : Str → Str → Bool
  | s, pat =>
    if startsWithSeq s pat then true
    else
      match s with
      | [] => false
      | _ :: rest => containsSeq rest pat

/-- Worker for `splitSeq`: Python `str.split(sep)` with a non-empty
separator `p :: ps`, scanning left to right over non-overlapping
occurrences; `acc` holds the current piece reversed.  Fueled for structural
recursion: every step consumes at least one character, so the caller's
fuel `length + 1` never runs out. -/
def splitSeqGo (p : Char) (ps : Str) : Nat → Str → Str → List Str
  | _, [], acc => [acc.reverse]
  | 0, s, acc => [(s.reverse ++ acc).reverse]
  | fuel + 1, c :: rest, acc =>
    if startsWithSeq (c :: rest) (p :: ps) then
      acc.reverse :: splitSeqGo p ps fuel (rest.drop ps.length) []
    else
      splitSeqGo p ps fuel rest (c :: acc)

/-- Python `str.split(sep)`.  The repository only splits on non-empty
separators (`". "`, the output markers); Python raises on an empty one. -/
def splitSeq (s sep : Str) : List Str :=
  match sep with
  | [] => [s]
  | p :: ps => splitSeqGo p ps (s.length + 1) s []

/-- Worker for `replaceSeq` with a non-empty pattern `p :: ps` (fueled for
structural recursion; each step consumes at least one character, so the
caller's fuel `length + 1` never runs out). -/
def replaceSeqGo (p : Char) (ps : Str) (repl : Str) : Nat → Str → Str
  | _, [] => []
  | 0, s => s
  | fuel + 1, c :: rest =>
    if startsWithSeq (c :: rest) (p :: ps) then
      repl ++ replaceSeqGo p ps repl fuel (rest.drop ps.length)
    else
      c :: replaceSeqGo p ps repl fuel rest

/-- Python `str.replace(old, new)`: replace every non-overlapping occurrence,
left to right.  The repository only replaces non-empty patterns (`",}"`,
`",]"`). -/
def replaceSeq (s sep repl : Str) : Str :=
  match sep with
  | [] => s
  | p :: ps => replaceSeqGo p ps repl (s.length + 1) s

/-! ## Prompt text truncation (`keyword_extractor.py`, lines 156–175) -/

/-- `MAX_TEXT_LENGTH = 2500` (`keyword_extractor.py` line 157). -/
def MAX_TEXT_LENGTH : Nat := 2500

/-- The sentence separator `". "` used by the truncation loop. -/
def dotSpace : Str := ". ".toList

/-- The accumulation loop of the sentence-boundary truncation
(`keyword_extractor.py` lines 160–166): append `sentence + '. '` while the
total stays within `MAX_TEXT_LENGTH`, stop at the first sentence that does
not fit. -/
def buildTruncated : List Str → Str → Str
  | [], acc => acc
  | s :: rest, acc =>
    if (acc ++ (s ++ dotSpace)).length ≤ MAX_TEXT_LENGTH then
      buildTruncated rest (acc ++ (s ++ dotSpace))
    else acc

/-- Python `.rstrip('. ')`: drop trailing `'.'` and `' '` characters. -/
def rstripDotSpace (s : Str) : Str :=
  (s.reverse.dropWhile (fun c => c = '.' || c = ' ')).reverse

/-- The text-length management of `predict_keywords`
(`keyword_extractor.py` lines 156–173).  `MAX_TEXT_LENGTH * 0.8` is the
Python float `2000.0`, and `len(truncated_text) < 2000.0` holds exactly when
the integer length is below `2000`. -/
def truncate_text (text : Str) : Str :=
  if text.length > MAX_TEXT_LENGTH then
    let truncated := buildTruncated (splitSeq text dotSpace) []
    if truncated.length < 2000 then text.take MAX_TEXT_LENGTH
    else rstripDotSpace truncated
  else text

/-- The text portion placed into the prompt (`keyword_extractor.py`
line 175: `input_llm += "### Text:\n" + text.strip() + ...` after the
truncation block). -/
def promptText (text : Str) : Str := pyStrip (truncate_text text)

/-! ## The result cache (`keyword_extractor.py`, lines 18–35, 331–336)

`result_cache` is a Python dict from cache key to extracted JSON string.
CPython dicts iterate in insertion order; lookups do not reorder, and
`predict_keywords` only ever assigns a key that is absent, so the dict is
faithfully an association list ordered by insertion, keys unique. -/

/-- The in-memory result cache, in insertion order. -/
abbrev Cache := List (Str × Str)

/-- `MAX_CACHE_SIZE = 100` (`keyword_extractor.py` line 20). -/
def MAX_CACHE_SIZE : Nat := 100

/-- `cache_key in result_cache` / `result_cache[cache_key]`: first (unique)
binding of the key. -/
def cacheGet (c : Cache) (k : Str) : Option Str :=
  match c with
  | [] => none
  | (k', v) :: rest => if k' = k then some v else cacheGet rest k

/-- `del result_cache[key]` for one key: remove its binding (the dict has at
most one; on the list model this removes every pair with that key, which
coincides when keys are unique). -/
def delKey (c : Cache) (k : Str) : Cache :=
  c.filter (fun e => e.1 ≠ k)

/-- `cleanup_cache` (`keyword_extractor.py` lines 27–35): when the entry
count exceeds `MAX_CACHE_SIZE`, delete the keys `list(result_cache.keys())[:-MAX_CACHE_SIZE]`,
i.e. all but the last `MAX_CACHE_SIZE` insertion-ordered keys. -/
def cleanup_cache (c : Cache) : Cache :=
  if c.length > MAX_CACHE_SIZE then
    let keysToRemove := (c.map Prod.fst).take (c.length - MAX_CACHE_SIZE)
    keysToRemove.foldl delKey c
  else c

/-- `clear_cache` (`keyword_extractor.py` lines 331–336): `result_cache.clear()`. -/
def clear_cache : Cache := []

/-- Python `repr` of a list of strings, as interpolated by the f-string in
`get_cache_key` (`f"{examples or []}"`): `['a', 'b']`.  Quote-escaping
inside elements is not modelled; it only affects which exotic inputs
collide, and no claim relies on collision-freedom. -/
def pyReprStrList (l : List Str) : Str :=
  '[' :: ((l.map (fun s => squote :: (s ++ [squote]))).intersperse (", ".toList)).flatten ++ [']']

/-- `get_cache_key` (`keyword_extractor.py` lines 22–25): the MD5 hex digest
of `f"{text}|{schema}|{examples or []}"`.  The digest itself is modelled as
the identity on the digest input: every claim uses only that the key is a
deterministic function of the three inputs, never a property of MD5.
`examples or []` maps both `None` and `[]` to `[]`; on the model
`Option.getD` agrees because `[]` is already `[]`. -/
def get_cache_key (text schema : Str) (examples : Option (List Str)) : Str :=
  text ++ ('|' :: schema) ++ ('|' :: pyReprStrList (examples.getD []))

/-! ## JSON (`json.loads` / `json.dumps`)

`predict_keywords` uses `json.loads` for strict validation and `json.dumps`
with `indent=2` for re-serialization.  Both are modelled concretely.  Two
deliberate approximations, neither load-bearing for any claim: numeric
literals are kept verbatim instead of being round-tripped through floats
(Python would re-format `1e2` as `100.0`), and a lone surrogate escape maps
to the null character (Lean `Char` cannot hold an unpaired surrogate). -/

/-- A parsed JSON document.  Object fields are kept in insertion order with
unique keys, as a CPython dict holds them. -/
inductive JsonValue where
  | null
  | bool (b : Bool)
  | num (lit : Str)
  | str (s : Str)
  | arr (items : List JsonValue)
  | obj (fields : List (Str × JsonValue))

/-- Whitespace skipped between JSON tokens. -/
def isJsonWs (c : Char) : Bool :=
  c = ' ' || c = '\t' || c = '\n' || c = '\r'

/-- Value of one hexadecimal digit. -/
def hexVal (c : Char) : Option Nat :=
  let n := c.toNat
  if 48 ≤ n && n ≤ 57 then some (n - 48)
  else if 97 ≤ n && n ≤ 102 then some (n - 87)
  else if 65 ≤ n && n ≤ 70 then some (n - 55)
  else none

/-- Dict insertion `d[k] = v` while building an object: an existing key
keeps its position and gets the new value, a new key is appended (so a
duplicate key in the JSON text keeps the last value, as in Python). -/
def objInsert (fields : List (Str × JsonValue)) (k : Str) (v : JsonValue) :
    List (Str × JsonValue) :=
  match fields with
  | [] => [(k, v)]
  | (k', v') :: rest =>
    if k' = k then (k', v) :: rest else (k', v') :: objInsert rest k v

/-- The character denoted by a single-character escape `\e`, when valid. -/
def escCharOf (e : Char) : Option Char :=
  if e = '"' then some '"'
  else if e = '\\' then some '\\'
  else if e = '/' then some '/'
  else if e = 'b' then some (Char.ofNat 8)
  else if e = 'f' then some (Char.ofNat 12)
  else if e = 'n' then some '\n'
  else if e = 'r' then some '\r'
  else if e = 't' then some '\t'
  else none

/-- Decode a `\uXXXX` escape, positioned just after the `\u`.  A high
surrogate followed by an escaped low surrogate combines into one character,
as in Python. -/
def parseUEsc (cs : Str) : Option (Char × Str) :=
  match cs with
  | h1 :: h2 :: h3 :: h4 :: rest3 =>
    match hexVal h1, hexVal h2, hexVal h3, hexVal h4 with
    | some a, some b, some c', some d =>
      let v := a * 4096 + b * 256 + c' * 16 + d
      if 0xD800 ≤ v && v ≤ 0xDBFF then
        match rest3 with
        | '\\' :: 'u' :: g1 :: g2 :: g3 :: g4 :: rest4 =>
          match hexVal g1, hexVal g2, hexVal g3, hexVal g4 with
          | some a2, some b2, some c2, some d2 =>
            let w := a2 * 4096 + b2 * 256 + c2 * 16 + d2
            if 0xDC00 ≤ w && w ≤ 0xDFFF then
              some (Char.ofNat (0x10000 + (v - 0xD800) * 0x400 + (w - 0xDC00)), rest4)
            else some (Char.ofNat v, rest3)
          | _, _, _, _ => some (Char.ofNat v, rest3)
        | _ => some (Char.ofNat v, rest3)
      else some (Char.ofNat v, rest3)
    | _, _, _, _ => none
  | _ => none

/-- Parse the body of a JSON string, after the opening quote (fueled; each
step consumes at least one character, so fuel `length + 1` always
suffices).  Returns the decoded characters and the rest of the input past
the closing quote.  Unescaped control characters are rejected
(`json.loads` default `strict=True`). -/
def parseJString : Nat → Str → Option (Str × Str)
  | 0, _ => none
  | _, [] => none
  | fuel + 1, c :: rest =>
    if c = '"' then some ([], rest)
    else if c = '\\' then
      match rest with
      | [] => none
      | e :: rest2 =>
        if e = 'u' then
          match parseUEsc rest2 with
          | some (ch, r) => (parseJString fuel r).map (fun p => (ch :: p.1, p.2))
          | none => none
        else
          match escCharOf e with
          | some ch => (parseJString fuel rest2).map (fun p => (ch :: p.1, p.2))
          | none => none
    else if c.toNat < 32 then none
    else (parseJString fuel rest).map (fun p => (c :: p.1, p.2))

/-- Parse a JSON string body with adequate fuel. -/
def parseJStringAll (s : Str) : Option (Str × Str) :=
  parseJString (s.length + 1) s

/-- Parse a JSON number starting at its first character (optionally `-`,
then `Infinity` or `int [frac] [exp]` per the JSON grammar; `NaN` and bare
`Infinity` are handled by the caller or here, matching Python's default
`parse_constant`).  Returns the literal characters and the rest. -/
def parseNumber (cs : Str) : Option (Str × Str) :=
  let negSplit : Bool × Str :=
    match cs with
    | c :: rest => if c = '-' then (true, rest) else (false, cs)
    | [] => (false, [])
  let neg := negSplit.1
  let cs1 := negSplit.2
  if startsWithSeq cs1 ("Infinity".toList) then
    some ((if neg then '-' :: "Infinity".toList else "Infinity".toList), cs1.drop 8)
  else
    match cs1 with
    | [] => none
    | d :: rest =>
      if !d.isDigit then none
      else
        let intPart : Option (Str × Str) :=
          if d = '0' then
            if (rest.head?.map Char.isDigit).getD false then none else some ([d], rest)
          else
            let sp := rest.span Char.isDigit
            some (d :: sp.1, sp.2)
        match intPart with
        | none => none
        | some (ip, r1) =>
          let fracPart : Option (Str × Str) :=
            match r1 with
            | '.' :: r2 =>
              let sp := r2.span Char.isDigit
              if sp.1.isEmpty then none else some ('.' :: sp.1, sp.2)
            | _ => some ([], r1)
          match fracPart with
          | none => none
          | some (fp, r2) =>
            let expPart : Option (Str × Str) :=
              match r2 with
              | e :: r3 =>
                if e = 'e' || e = 'E' then
                  let signSplit : Str × Str :=
                    match r3 with
                    | s :: r4 => if s = '+' || s = '-' then ([s], r4) else ([], r3)
                    | [] => ([], r3)
                  let sp := signSplit.2.span Char.isDigit
                  if sp.1.isEmpty then none
                  else some (e :: (signSplit.1 ++ sp.1), sp.2)
                else some ([], r2)
              | [] => some ([], r2)
            match expPart with
            | none => none
            | some (ep, r3) =>
              some ((if neg then ['-'] else []) ++ ip ++ fp ++ ep, r3)

mutual

/-- Parse one JSON value, skipping leading whitespace.  `fuel` only bounds
recursion depth; `parseJson` supplies enough for any input it is given. -/
def parseValue : Nat → Str → Option (JsonValue × Str)
  | 0, _ => none
  | fuel + 1, cs =>
    match cs.dropWhile isJsonWs with
    | [] => none
    | c :: rest =>
      if c = '"' then (parseJStringAll rest).map (fun p => (JsonValue.str p.1, p.2))
      else if c = lbrace then parseObjBody fuel rest
      else if c = '[' then parseArrBody fuel rest
      else if startsWithSeq (c :: rest) ("true".toList) then
        some (JsonValue.bool true, rest.drop 3)
      else if startsWithSeq (c :: rest) ("false".toList) then
        some (JsonValue.bool false, rest.drop 4)
      else if startsWithSeq (c :: rest) ("null".toList) then
        some (JsonValue.null, rest.drop 3)
      else if startsWithSeq (c :: rest) ("NaN".toList) then
        some (JsonValue.num ("NaN".toList), rest.drop 2)
      else (parseNumber (c :: rest)).map (fun p => (JsonValue.num p.1, p.2))

/-- Parse an object body, after the opening brace. -/
def parseObjBody : Nat → Str → Option (JsonValue × Str)
  | 0, _ => none
  | fuel + 1, cs =>
    match cs.dropWhile isJsonWs with
    | [] => none
    | c :: rest =>
      if c = rbrace then some (JsonValue.obj [], rest)
      else parseMembers fuel [] (c :: rest)

/-- Parse the members of a non-empty object; `acc` is the dict built so far. -/
def parseMembers : Nat → List (Str × JsonValue) → Str → Option (JsonValue × Str)
  | 0, _, _ => none
  | fuel + 1, acc, cs =>
    match cs.dropWhile isJsonWs with
    | '"' :: rest =>
      match parseJStringAll rest with
      | none => none
      | some (key, r1) =>
        match r1.dropWhile isJsonWs with
        | ':' :: r2 =>
          match parseValue fuel r2 with
          | none => none
          | some (v, r3) =>
            match r3.dropWhile isJsonWs with
            | ',' :: r4 => parseMembers fuel (objInsert acc key v) r4
            | c2 :: r4 =>
              if c2 = rbrace then some (JsonValue.obj (objInsert acc key v), r4) else none
            | [] => none
        | _ => none
    | _ => none

/-- Parse an array body, after the opening bracket. -/
def parseArrBody : Nat → Str → Option (JsonValue × Str)
  | 0, _ => none
  | fuel + 1, cs =>
    match cs.dropWhile isJsonWs with
    | [] => none
    | c :: rest =>
      if c = ']' then some (JsonValue.arr [], rest)
      else parseItems fuel [] (c :: rest)

/-- Parse the items of a non-empty array. -/
def parseItems : Nat → List JsonValue → Str → Option (JsonValue × Str)
  | 0, _, _ => none
  | fuel + 1, acc, cs =>
    match parseValue fuel cs with
    | none => none
    | some (v, r1) =>
      match r1.dropWhile isJsonWs with
      | ',' :: r2 => parseItems fuel (acc ++ [v]) r2
      | c2 :: r2 => if c2 = ']' then some (JsonValue.arr (acc ++ [v]), r2) else none
      | [] => none

end

/-- `json.loads`: parse a full document, allowing surrounding whitespace,
rejecting trailing content.  The fuel `2 * length + 2` exceeds the nesting
depth plus member count any input of that length can have. -/
def parseJson (s : Str) : Option JsonValue :=
  match parseValue (2 * s.length + 2) s with
  | some (v, rest) => if (rest.dropWhile isJsonWs).isEmpty then some v else none
  | none => none

/-- Lowercase hex digit (as Python uses in `\uXXXX` escapes). -/
def toHexDigit (n : Nat) : Char :=
  if n < 10 then Char.ofNat (48 + n) else Char.ofNat (87 + n)

/-- A `\uXXXX` escape for a code unit. -/
def uEscape (n : Nat) : Str :=
  '\\' :: 'u' ::
    [toHexDigit (n / 4096 % 16), toHexDigit (n / 256 % 16),
     toHexDigit (n / 16 % 16), toHexDigit (n % 16)]

/-- One character of `json.dumps` string output.  With `ensure_ascii` every
non-ASCII character is escaped (surrogate pairs above `U+FFFF`); without it
only `"`, `\` and control characters are. -/
def escChar (ensureAscii : Bool) (c : Char) : Str :=
  if c = '"' then ['\\', '"']
  else if c = '\\' then ['\\', '\\']
  else if c = '\n' then ['\\', 'n']
  else if c = '\t' then ['\\', 't']
  else if c = '\r' then ['\\', 'r']
  else if c.toNat = 8 then ['\\', 'b']
  else if c.toNat = 12 then ['\\', 'f']
  else if c.toNat < 32 then uEscape c.toNat
  else if ensureAscii && 127 ≤ c.toNat then
    if c.toNat ≤ 0xFFFF then uEscape c.toNat
    else
      let n := c.toNat - 0x10000
      uEscape (0xD800 + n / 0x400) ++ uEscape (0xDC00 + n % 0x400)
  else [c]

/-- `json.dumps` of a string. -/
def dumpStr (ensureAscii : Bool) (s : Str) : Str :=
  '"' :: (s.map (escChar ensureAscii)).flatten ++ ['"']

/-- The indentation for nesting level `lvl` under `indent=2`. -/
def dumpIndent (lvl : Nat) : Str := List.replicate (2 * lvl) ' '

mutual

/-- `json.dumps(v, indent=2)` at nesting level `lvl`; `ea` is
`ensure_ascii`.  With `indent` set, Python separates items by `",\n" +
indent` and keys by `": "`; empty containers print as `{}` / `[]`. -/
def dumpVal (ea : Bool) (lvl : Nat) : JsonValue → Str
  | .null => "null".toList
  | .bool true => "true".toList
  | .bool false => "false".toList
  | .num lit => lit
  | .str s => dumpStr ea s
  | .arr [] => "[]".toList
  | .arr (v :: vs) =>
    '[' :: '\n' ::
      (dumpIndent (lvl + 1) ++ dumpVal ea (lvl + 1) v ++ dumpItemsTail ea (lvl + 1) vs ++
        ('\n' :: dumpIndent lvl ++ [']']))
  | .obj [] => [lbrace, rbrace]
  | .obj (f :: fs) =>
    lbrace :: '\n' ::
      (dumpIndent (lvl + 1) ++ dumpField ea (lvl + 1) f ++ dumpFieldsTail ea (lvl + 1) fs ++
        ('\n' :: dumpIndent lvl ++ [rbrace]))

/-- The remaining items of a non-empty array, each preceded by `",\n" + indent`. -/
def dumpItemsTail (ea : Bool) (lvl : Nat) : List JsonValue → Str
  | [] => []
  | v :: vs => ',' :: '\n' :: (dumpIndent lvl ++ dumpVal ea lvl v ++ dumpItemsTail ea lvl vs)

/-- One `"key": value` field. -/
def dumpField (ea : Bool) (lvl : Nat) : Str × JsonValue → Str
  | (k, v) => dumpStr ea k ++ (':' :: ' ' :: dumpVal ea lvl v)

/-- The remaining fields of a non-empty object. -/
def dumpFieldsTail (ea : Bool) (lvl : Nat) : List (Str × JsonValue) → Str
  | [] => []
  | f :: fs => ',' :: '\n' :: (dumpIndent lvl ++ dumpField ea lvl f ++ dumpFieldsTail ea lvl fs)

end

/-- `json.dumps(v, indent=2, ensure_ascii=False)` — used for every result
re-serialization in `predict_keywords` (lines 292, 305, 312). -/
def dumpJson2 (v : JsonValue) : Str := dumpVal false 0 v

/-- `json.dumps(v, indent=2, separators=(',', ': '))` with the default
`ensure_ascii=True` — the schema normalization at line 122 (those separators
are already the defaults under `indent`). -/
def dumpJsonAscii (v : JsonValue) : Str := dumpVal true 0 v

/-! ## Result extraction (`keyword_extractor.py`, lines 240–277) -/

/-- The `<|output|>` marker. -/
def markerOut : Str := "<|output|>".toList

/-- The `<|end-output|>` marker. -/
def markerEnd : Str := "<|end-output|>".toList

/-- The brace-matching loop (`keyword_extractor.py` lines 256–265): starting
from the first `{`, count braces until the count returns to zero; `some n`
means the balanced region is the first `n` characters, `none` that the
count never returned to zero.  The loop is always entered on a string whose
first character is `{`, so the count stays positive until the final
closing brace (Python's counter never goes negative there, and the `Nat`
subtraction is exact). -/
def scanBraces : Str → Nat → Option Nat
  | [], _ => none
  | c :: rest, count =>
    if c = lbrace then (scanBraces rest (count + 1)).map Nat.succ
    else if c = rbrace then
      if count = 1 then some 1
      else (scanBraces rest (count - 1)).map Nat.succ
    else (scanBraces rest count).map Nat.succ

/-- The result-extraction step of `predict_keywords`
(`keyword_extractor.py` lines 241–274): with an `<|output|>` marker, take
`output.split("<|output|>")[1]` (up to `<|end-output|>` when present) and
strip it; with no marker, find the first `{` and brace-match from there,
falling back to the stripped full output when no `{` exists or the braces
never balance. -/
def extract_result (output : Str) : Str :=
  if containsSeq output markerOut then
    if containsSeq output markerEnd then
      pyStrip ((splitSeq ((splitSeq output markerOut).getD 1 []) markerEnd).getD 0 [])
    else
      pyStrip ((splitSeq output markerOut).getD 1 [])
  else
    let fromBrace := output.dropWhile (fun c => c ≠ lbrace)
    match fromBrace with
    | [] => pyStrip output
    | _ :: _ =>
      match scanBraces fromBrace 0 with
      | some len => fromBrace.take len
      | none => pyStrip output

/-! ## Validation, repair and fallback (`keyword_extractor.py`, lines 276–312) -/

/-- The validate-and-fix block of `predict_keywords`
(`keyword_extractor.py` lines 276–312) applied to the raw model output
`output`, with `schema2` the (possibly normalized) schema string in scope
at line 311.  Strict parse success re-serializes — but line 285 iterates
`parsed_result.items()`, which raises `AttributeError` on a non-dict value.
On parse failure the trailing-comma repair is tried, then the schema is
parsed (raising `JSONDecodeError` out of the function when the schema
itself is not valid JSON) and returned re-serialized. -/
def processOutput (output schema2 : Str) : Except String Str :=
  let r0 := pyStrip (extract_result output)
  match parseJson r0 with
  | some (JsonValue.obj fields) => Except.ok (dumpJson2 (JsonValue.obj fields))
  | some _ => Except.error "AttributeError"
  | none =>
    let fixed := replaceSeq (replaceSeq r0 (',' :: [rbrace]) [rbrace]) (",]".toList) ("]".toList)
    match parseJson fixed with
    | some v => Except.ok (dumpJson2 v)
    | none =>
      match parseJson schema2 with
      | some sv => Except.ok (dumpJson2 sv)
      | none => Except.error "JSONDecodeError"

/-- The schema clean-up of `predict_keywords` (`keyword_extractor.py`
lines 120–124): a schema that parses is re-serialized (with the default
`ensure_ascii=True`), an invalid one is used as-is. -/
def normalizeSchema (schema : Str) : Str :=
  match parseJson schema with
  | some v => dumpJsonAscii v
  | none => schema

/-- What one `predict_keywords` call produces when it returns normally. -/
structure PredictOutcome where
  result : Str
  cache : Cache
  modelInvoked : Bool
deriving DecidableEq

/-- `predict_keywords` (`keyword_extractor.py` lines 86–329) as a state
transformer on the cache.  On a cache hit the stored string is returned
with no model invocation (lines 99–103).  On a miss, the model is loaded
and invoked exactly once on the assembled prompt; the decoded output of
that single invocation is the `modelOutput` parameter (the prompt assembly
feeding it, including `truncate_text`, does not influence anything else).
The extracted result is stored under the key and `cleanup_cache` runs
(lines 316–319).  An exception anywhere (lines 294–312) propagates before
the store, leaving the cache unchanged. -/
def predict_keywords (cache : Cache) (text schema : Str)
    (examples : Option (List Str)) (modelOutput : Str) :
    Except String PredictOutcome :=
  let key := get_cache_key text schema examples
  match cacheGet cache key with
  | some v => Except.ok ⟨v, cache, false⟩
  | none =>
    let schema2 := normalizeSchema schema
    match processOutput modelOutput schema2 with
    | Except.ok r => Except.ok ⟨r, cleanup_cache (cache ++ [(key, r)]), true⟩
    | Except.error e => Except.error e

/-! ## The resume loader (`data_loader.py`, lines 23–125) -/

/-- The fallible library calls `load_resumes` makes, as an environment:
per-file `PyPDFLoader(...).load()` followed by the splitter (lines 72–78),
`FAISS.from_documents` (line 93), and the `vector_store.json` write
(lines 104–109).  Chunks and the vector store are abstracted to the lists
of chunk texts they carry. -/
structure LoadEnv where
  parseFile : Str → Except String (List Str)
  buildIndex : List Str → Except String (List Str)
  saveMeta : List Str → Except String Unit

/-- The document-processing loop (`data_loader.py` lines 65–83): each
file's chunks are appended to `docs`; a file whose load raises is logged
and skipped (`continue`). -/
def collectDocs (env : LoadEnv) (pdfFiles : List Str) : List Str :=
  pdfFiles.foldl
    (fun acc f =>
      match env.parseFile f with
      | Except.ok ds => acc ++ ds
      | Except.error _ => acc)
    []

/-- `load_resumes` (`data_loader.py` lines 23–125) on the list of `*.pdf`
paths the `glob` found.  With no PDF files it returns `None` (lines 36–38).
Otherwise it collects chunks (skipping failed files), builds the vector
store — re-raising on failure (lines 92–97) — and saves the metadata
sidecar — also re-raising on failure (lines 103–112). -/
def load_resumes (env : LoadEnv) (pdfFiles : List Str) :
    Except String (Option (List Str)) :=
  if pdfFiles.isEmpty then Except.ok none
  else
    let docs := collectDocs env pdfFiles
    match env.buildIndex docs with
    | Except.error e => Except.error e
    | Except.ok vs =>
      match env.saveMeta docs with
      | Except.error e => Except.error e
      | Except.ok _ => Except.ok (some vs)

/-! ## The upload endpoint (`app.py`, lines 175–264)

The data folder is a list of file names (the filesystem state).  Writing an
uploaded file is assumed to succeed (the `except` at lines 225–227 turns a
write failure into a 500; no claim concerns it).  An `HTTPException` is an
`Except.error` carrying the status code and the folder state at raise time
— the files already deleted or saved stay deleted or saved. -/

/-- The `.pdf` suffix. -/
def pdfExt : Str := ".pdf".toList

/-- The validation at `app.py` line 210:
`file.filename.lower().endswith('.pdf')`. -/
def isPdfName (f : Str) : Bool := endsWithSeq (pyLower f) pdfExt

/-- Saving one uploaded file (`app.py` lines 216–219): an existing file of
the same name is overwritten. -/
def saveFile (folder : List Str) (name : Str) : List Str :=
  folder.filter (fun g => g ≠ name) ++ [name]

/-- The HTTP response of a successful upload (`app.py` lines 260–264;
`vector_store_created` is set unconditionally at line 242). -/
structure UploadResponse where
  filesProcessed : Nat
  vectorStoreCreated : Bool
deriving DecidableEq

/-- The validate-and-save loop of `upload_resumes` (`app.py` lines
205–227), followed by the vector-store creation (lines 240–248): a file
whose lowercased name does not end in `.pdf` raises 400 on the spot;
after the loop, `load_resumes` runs on the `*.pdf` files now in the
folder, an exception becoming a 500, and any non-exception value — `None`
included — yielding the success response. -/
def uploadLoop (env : LoadEnv) : List Str → List Str → Nat →
    Except (Nat × List Str) (UploadResponse × List Str)
  | folder, [], n =>
    match load_resumes env (folder.filter (fun g => endsWithSeq g pdfExt)) with
    | Except.error _ => Except.error (500, folder)
    | Except.ok _ => Except.ok (⟨n, true⟩, folder)
  | folder, f :: rest, n =>
    if isPdfName f then uploadLoop env (saveFile folder f) rest (n + 1)
    else Except.error (400, folder)

/-- `upload_resumes` (`app.py` lines 175–264): delete every `*.pdf` already
in the data folder (lines 193–199; `glob("*.pdf")` matches the exact
lowercase suffix), then validate and save the uploaded files in order and
build the vector store. -/
def upload_resumes (env : LoadEnv) (folder files : List Str) :
    Except (Nat × List Str) (UploadResponse × List Str) :=
  let cleared := folder.filter (fun g => !endsWithSeq g pdfExt)
  uploadLoop env cleared files 0

/-! ## Derived state-machine definitions used by the claims -/

/-- The inputs of one `predict_keywords` call: text, schema, examples, and
the model's decoded output for the (single) invocation a miss would make. -/
abbrev Request := Str × Str × Option (List Str) × Str

/-- The cache state after one `predict_keywords` call: an exception leaves
the cache as it was (the store at line 318 is never reached). -/
def stepCache (c : Cache) (r : Request) : Cache :=
  match predict_keywords c r.1 r.2.1 r.2.2.1 r.2.2.2 with
  | Except.ok o => o.cache
  | Except.error _ => c

/-- The cache states observed at the end of each call of a sequence. -/
def runTrace (c : Cache) : List Request → List Cache
  | [] => []
  | r :: rs => stepCache c r :: runTrace (stepCache c r) rs

/-- A string is a balanced `{...}` block: it starts with `{` and the brace
scan of `predict_keywords` closes exactly at its end. -/
def isBalancedBraces (s : Str) : Bool :=
  match s with
  | [] => false
  | c :: _ => c = lbrace && (scanBraces s 0 = some s.length)

/-- A loader environment in which every library call succeeds. -/
def trivEnv : LoadEnv where
  parseFile := fun _ => Except.ok []
  buildIndex := fun d => Except.ok d
  saveMeta := fun _ => Except.ok ()

/-- A loader environment in which parsing and the index build succeed but
the metadata write to `vector_store.json` raises. -/
def badSaveEnv : LoadEnv where
  parseFile := fun _ => Except.ok ["chunk".toList]
  buildIndex := fun d => Except.ok d
  saveMeta := fun _ => Except.error "disk full"

/-- A concrete cache of 101 entries with distinct keys. -/
def witCache : Cache :=
  (List.range 101).map (fun i => (List.replicate i 'a', ("v".toList : Str)))

/-! ## Helper lemmas -/

theorem buildTruncated_length_le (ss : List Str) (acc : Str)
    (h : acc.length ≤ MAX_TEXT_LENGTH) :
    (buildTruncated ss acc).length ≤ MAX_TEXT_LENGTH := by
  induction ss generalizing acc with
  | nil => simpa [buildTruncated] using h
  | cons s rest ih =>
    simp only [buildTruncated]
    split
    · exact ih _ (by assumption)
    · exact h

theorem pyStrip_length_le (s : Str) : (pyStrip s).length ≤ s.length := by
  unfold pyStrip
  calc ((s.dropWhile isPySpace).reverse.dropWhile isPySpace).reverse.length
      = ((s.dropWhile isPySpace).reverse.dropWhile isPySpace).length := by
        rw [List.length_reverse]
    _ ≤ (s.dropWhile isPySpace).reverse.length :=
        (List.dropWhile_sublist _).length_le
    _ = (s.dropWhile isPySpace).length := by rw [List.length_reverse]
    _ ≤ s.length := (List.dropWhile_sublist _).length_le

theorem rstripDotSpace_length_le (s : Str) : (rstripDotSpace s).length ≤ s.length := by
  unfold rstripDotSpace
  calc (s.reverse.dropWhile (fun c => c = '.' || c = ' ')).reverse.length
      = (s.reverse.dropWhile (fun c => c = '.' || c = ' ')).length := by
        rw [List.length_reverse]
    _ ≤ s.reverse.length := (List.dropWhile_sublist _).length_le
    _ = s.length := by rw [List.length_reverse]

theorem truncate_text_length_le (text : Str) :
    (truncate_text text).length ≤ MAX_TEXT_LENGTH := by
  unfold truncate_text
  split
  · simp only
    split
    · exact List.length_take_le _ _
    · calc (rstripDotSpace (buildTruncated (splitSeq text dotSpace) [])).length
          ≤ (buildTruncated (splitSeq text dotSpace) []).length :=
            rstripDotSpace_length_le _
        _ ≤ MAX_TEXT_LENGTH := buildTruncated_length_le _ _ (by simp)
  · omega

/-! ## Claim C8 -/

/-- Claim C8: for every input text, the text portion placed into the prompt
by `predict_keywords` is at most `MAX_TEXT_LENGTH` (2500) characters; text
over the budget is truncated at sentence boundaries, with the hard
character cut `text[:MAX_TEXT_LENGTH]` used when the sentence-boundary
truncation retains less than 80% of the budget (2000 characters); text
within the budget is placed without truncation (only the final `strip`
applies). -/
theorem prompt_text_bounded (text : Str) :
    (promptText text).length ≤ MAX_TEXT_LENGTH ∧
    (text.length ≤ MAX_TEXT_LENGTH → promptText text = pyStrip text) ∧
    (text.length > MAX_TEXT_LENGTH →
      (buildTruncated (splitSeq text dotSpace) []).length < 2000 →
      truncate_text text = text.take MAX_TEXT_LENGTH) := by
  refine ⟨?_, ?_, ?_⟩
  · exact le_trans (pyStrip_length_le _) (truncate_text_length_le text)
  · intro h
    unfold promptText truncate_text
    rw [if_neg (by omega)]
  · intro h1 h2
    unfold truncate_text
    rw [if_pos h1]
    simp only
    rw [if_pos h2]

/-- Witness for Claim C8 at the concrete text `"hi"`. -/
theorem prompt_text_bounded_witness :
    (promptText ("hi".toList)).length ≤ MAX_TEXT_LENGTH ∧
    promptText ("hi".toList) = pyStrip ("hi".toList) :=
  ⟨(prompt_text_bounded ("hi".toList)).1,
   (prompt_text_bounded ("hi".toList)).2.1 (by decide)⟩

/-! ## Cache lemmas -/

theorem delKey_of_not_mem (c : Cache) (k : Str) (h : k ∉ c.map Prod.fst) :
    delKey c k = c := by
  apply List.filter_eq_self.mpr
  intro e he
  simp only [decide_eq_true_eq]
  intro heq
  exact h (heq ▸ List.mem_map_of_mem Prod.fst he)

theorem foldl_delKey_keys (pre suf : Cache)
    (h : ((pre ++ suf).map Prod.fst).Nodup) :
    (pre.map Prod.fst).foldl delKey (pre ++ suf) = suf := by
  induction pre generalizing suf with
  | nil => simp
  | cons e pre ih =>
    simp only [List.cons_append, List.map_cons, List.nodup_cons] at h
    have h1 : e.1 ∉ (pre ++ suf).map Prod.fst := h.1
    have h2 : delKey (e :: (pre ++ suf)) e.1 = pre ++ suf := by
      have hrest := delKey_of_not_mem (pre ++ suf) e.1 h1
      unfold delKey at hrest ⊢
      rw [List.filter_cons, if_neg (by simp)]
      exact hrest
    simp only [List.map_cons, List.foldl_cons, List.cons_append, h2]
    exact ih suf h.2

theorem cleanup_cache_eq_drop (c : Cache) (h : (c.map Prod.fst).Nodup) :
    cleanup_cache c = c.drop (c.length - MAX_CACHE_SIZE) := by
  unfold cleanup_cache
  split
  · have hnd : ((c.take (c.length - MAX_CACHE_SIZE) ++
        c.drop (c.length - MAX_CACHE_SIZE)).map Prod.fst).Nodup := by
      rw [List.take_append_drop]; exact h
    have hfold := foldl_delKey_keys _ _ hnd
    rw [List.take_append_drop] at hfold
    show ((c.map Prod.fst).take (c.length - MAX_CACHE_SIZE)).foldl delKey c =
      c.drop (c.length - MAX_CACHE_SIZE)
    rw [← List.map_take]
    exact hfold
  · have : c.length - MAX_CACHE_SIZE = 0 := by omega
    rw [this, List.drop_zero]

theorem cleanup_cache_length_le (c : Cache)
    (h : c.length ≤ MAX_CACHE_SIZE + 1) :
    (cleanup_cache c).length ≤ MAX_CACHE_SIZE := by
  unfold cleanup_cache
  split
  · next hgt =>
    have hr : c.length - MAX_CACHE_SIZE = 1 := by omega
    have hlen : c.length = MAX_CACHE_SIZE + 1 := by omega
    rw [hr]
    cases c with
    | nil => simp at hlen
    | cons e rest =>
      simp only [List.map_cons, List.take_succ_cons, List.take_zero,
        List.foldl_cons, List.foldl_nil]
      have hdel : delKey (e :: rest) e.1 = rest.filter (fun x => x.1 ≠ e.1) := by
        unfold delKey
        rw [List.filter_cons]
        simp
      rw [hdel]
      calc (rest.filter (fun x => x.1 ≠ e.1)).length
          ≤ rest.length := List.length_filter_le _ _
        _ = MAX_CACHE_SIZE := by
            simp only [List.length_cons] at hlen; omega
  · omega

/-! ## Claim C9 -/

/-- Claim C9: whenever the entry count exceeds the capacity,
`cleanup_cache` removes exactly the oldest-inserted entries beyond the
capacity — the cache splits as the removed oldest prefix followed by the
kept result — keeping the `MAX_CACHE_SIZE` most recently inserted entries;
the result is determined by insertion order alone (the state carries no
access information at all). -/
theorem cleanup_cache_evicts_oldest (c : Cache)
    (hnd : (c.map Prod.fst).Nodup) (hgt : c.length > MAX_CACHE_SIZE) :
    cleanup_cache c = c.drop (c.length - MAX_CACHE_SIZE) ∧
    c.take (c.length - MAX_CACHE_SIZE) ++ cleanup_cache c = c ∧
    (cleanup_cache c).length = MAX_CACHE_SIZE := by
  have hd := cleanup_cache_eq_drop c hnd
  refine ⟨hd, ?_, ?_⟩
  · rw [hd, List.take_append_drop]
  · rw [hd, List.length_drop]; omega

/-- Witness for Claim C9 at a concrete 101-entry cache with distinct keys. -/
theorem cleanup_cache_evicts_oldest_witness :
    cleanup_cache witCache = witCache.drop (witCache.length - MAX_CACHE_SIZE) ∧
    witCache.take (witCache.length - MAX_CACHE_SIZE) ++ cleanup_cache witCache = witCache ∧
    (cleanup_cache witCache).length = MAX_CACHE_SIZE := by
  apply cleanup_cache_evicts_oldest
  · unfold witCache
    rw [List.map_map]
    exact (List.nodup_range 101).map
      (fun a b hab => by simpa using congrArg List.length hab)
  · unfold witCache
    rw [List.length_map, List.length_range]
    decide

/-! ## Claim C1 -/

theorem predict_keywords_cache_shape (c : Cache) (text schema : Str)
    (examples : Option (List Str)) (modelOutput : Str) (out : PredictOutcome)
    (h : predict_keywords c text schema examples modelOutput = Except.ok out) :
    out.cache = c ∨
    ∃ r, out.cache =
      cleanup_cache (c ++ [(get_cache_key text schema examples, r)]) := by
  simp only [predict_keywords] at h
  split at h
  · left
    cases h
    rfl
  · split at h
    · right
      cases h
      exact ⟨_, rfl⟩
    · cases h

theorem stepCache_length_le (c : Cache) (r : Request)
    (h : c.length ≤ MAX_CACHE_SIZE) :
    (stepCache c r).length ≤ MAX_CACHE_SIZE := by
  unfold stepCache
  split
  · next o ho =>
    rcases predict_keywords_cache_shape _ _ _ _ _ _ ho with hc | ⟨res, hc⟩
    · rw [hc]; exact h
    · rw [hc]
      apply cleanup_cache_length_le
      rw [List.length_append]
      simpa using h
  · exact h

/-- Claim C1: starting from a cache within capacity (in particular the
initial empty `result_cache`), after every completed `predict_keywords`
call — each of which follows its insertion with `cleanup_cache` — the
number of cache entries is at most `MAX_CACHE_SIZE` (100), for every
sequence of calls. -/
theorem cache_size_invariant (c0 : Cache) (reqs : List Request)
    (h : c0.length ≤ MAX_CACHE_SIZE) :
    ∀ c ∈ runTrace c0 reqs, c.length ≤ MAX_CACHE_SIZE := by
  induction reqs generalizing c0 with
  | nil => intro c hc; simp [runTrace] at hc
  | cons r rest ih =>
    intro c hc
    simp only [runTrace, List.mem_cons] at hc
    rcases hc with hc | hc
    · rw [hc]; exact stepCache_length_le c0 r h
    · exact ih (stepCache c0 r) (stepCache_length_le c0 r h) c hc

/-- Witness for Claim C1: one concrete call from the empty cache. -/
theorem cache_size_invariant_witness :
    (stepCache [] (("t".toList, "s".toList, none, "o".toList))).length ≤
      MAX_CACHE_SIZE :=
  cache_size_invariant [] [("t".toList, "s".toList, none, "o".toList)]
    (by decide) _ (by simp [runTrace])

/-! ## Claim C2 -/

/-- Claim C2: whenever the cache key of `(text, schema, examples)` is bound
to a stored string `v` (a prior call stored it and it has not been evicted
or cleared), a `predict_keywords` call with identical inputs returns
exactly that stored string, leaves the cache unchanged, and performs no
model invocation. -/
theorem cache_hit_returns_stored (c : Cache) (text schema : Str)
    (examples : Option (List Str)) (modelOutput : Str) (v : Str)
    (h : cacheGet c (get_cache_key text schema examples) = some v) :
    predict_keywords c text schema examples modelOutput =
      Except.ok ⟨v, c, false⟩ := by
  simp only [predict_keywords]
  rw [h]

/-- Witness for Claim C2 at a concrete one-entry cache. -/
theorem cache_hit_returns_stored_witness :
    predict_keywords
        [(get_cache_key ("t".toList) ("s".toList) none, "stored".toList)]
        ("t".toList) ("s".toList) none ("other".toList) =
      Except.ok ⟨"stored".toList,
        [(get_cache_key ("t".toList) ("s".toList) none, "stored".toList)],
        false⟩ :=
  cache_hit_returns_stored _ _ _ _ _ _ (by rfl)

/-! ## Claim C7 -/

/-- Claim C7 (amended): after `clear_cache`, the key of any input triple is
absent, so the next `predict_keywords` call with that triple is a cache
miss whose generation path runs; provided that call returns normally, the
immediately following call with the identical triple is a cache hit
returning the stored result with no model invocation.  (The proviso is
necessary: a first call that raises stores nothing, see the
counterexample.) -/
theorem clear_then_requery (text schema : Str) (examples : Option (List Str))
    (o o2 : Str) (out : PredictOutcome)
    (h : predict_keywords clear_cache text schema examples o = Except.ok out) :
    cacheGet clear_cache (get_cache_key text schema examples) = none ∧
    out.modelInvoked = true ∧
    predict_keywords out.cache text schema examples o2 =
      Except.ok ⟨out.result, out.cache, false⟩ := by
  simp only [predict_keywords, clear_cache, cacheGet] at h
  split at h
  · next r hproc =>
    cases h
    refine ⟨rfl, rfl, ?_⟩
    have hcl : cleanup_cache ([] ++ [(get_cache_key text schema examples, r)]) =
        [(get_cache_key text schema examples, r)] := by
      simp [cleanup_cache, MAX_CACHE_SIZE]
    simp only [hcl]
    simp only [predict_keywords]
    rw [show cacheGet [(get_cache_key text schema examples, r)]
        (get_cache_key text schema examples) = some r from by simp [cacheGet]]
  · cases h

/-- Counterexample to Claim C7 as stated: with schema `"x"` (not valid
JSON) and unusable model output `"y"`, the first call after `clear_cache`
raises `JSONDecodeError` and stores nothing — the cache stays empty — so
the immediately following identical call is again a miss, not a hit. -/
theorem clear_then_requery_cex :
    predict_keywords clear_cache ("t".toList) ("x".toList) none ("y".toList) =
      Except.error "JSONDecodeError" ∧
    cacheGet clear_cache (get_cache_key ("t".toList) ("x".toList) none) = none :=
  ⟨by rfl, rfl⟩

/-- Witness for the amended Claim C7 at a concrete successful first call. -/
theorem clear_then_requery_witness :
    cacheGet clear_cache (get_cache_key ("t7".toList) ("\x7b\x7d".toList) none) = none ∧
    (PredictOutcome.mk ("\x7b\x7d".toList)
        [(get_cache_key ("t7".toList) ("\x7b\x7d".toList) none, "\x7b\x7d".toList)]
        true).modelInvoked = true ∧
    predict_keywords
        [(get_cache_key ("t7".toList) ("\x7b\x7d".toList) none, "\x7b\x7d".toList)]
        ("t7".toList) ("\x7b\x7d".toList) none ("w".toList) =
      Except.ok ⟨"\x7b\x7d".toList,
        [(get_cache_key ("t7".toList) ("\x7b\x7d".toList) none, "\x7b\x7d".toList)],
        false⟩ :=
  clear_then_requery ("t7".toList) ("\x7b\x7d".toList) none
    ("\x7b\x7d".toList) ("w".toList) _ rfl

/-! ## Claim C5 -/

/-- Claim C5 (amended): when strict JSON parsing of the extracted model
output fails and the trailing-comma repair also fails to parse, a cache
miss of `predict_keywords` returns the schema serialized as JSON — the
empty schema shape — provided the schema itself (after normalization) is
valid JSON; a schema that is not valid JSON makes the same path raise
`JSONDecodeError` instead (see the counterexample). -/
theorem json_fallback_schema (c : Cache) (text schema : Str)
    (examples : Option (List Str)) (output : Str) (sv : JsonValue)
    (hmiss : cacheGet c (get_cache_key text schema examples) = none)
    (h1 : parseJson (pyStrip (extract_result output)) = none)
    (h2 : parseJson (replaceSeq (replaceSeq (pyStrip (extract_result output))
      (',' :: [rbrace]) [rbrace]) (",]".toList) ("]".toList)) = none)
    (h3 : parseJson (normalizeSchema schema) = some sv) :
    predict_keywords c text schema examples output =
      Except.ok ⟨dumpJson2 sv,
        cleanup_cache (c ++ [(get_cache_key text schema examples, dumpJson2 sv)]),
        true⟩ := by
  have hproc : processOutput output (normalizeSchema schema) =
      Except.ok (dumpJson2 sv) := by
    simp only [processOutput, h1, h2, h3]
  simp only [predict_keywords, hmiss, hproc]

/-- Counterexample to Claim C5 as stated: model output `"zz"` fails strict
parsing, brace extraction and comma repair, and with the invalid schema
`"nj"` the call raises `JSONDecodeError` instead of returning the empty
schema shape. -/
theorem json_fallback_schema_cex :
    parseJson (pyStrip (extract_result ("zz".toList))) = none ∧
    parseJson (replaceSeq (replaceSeq (pyStrip (extract_result ("zz".toList)))
      (',' :: [rbrace]) [rbrace]) (",]".toList) ("]".toList)) = none ∧
    predict_keywords [] ("tt".toList) ("nj".toList) none ("zz".toList) =
      Except.error "JSONDecodeError" :=
  ⟨rfl, by rfl, by rfl⟩

/-- Witness for the amended Claim C5 at the valid schema `"{}"`. -/
theorem json_fallback_schema_witness :
    predict_keywords [] ("t5".toList) ("\x7b\x7d".toList) none ("zz".toList) =
      Except.ok ⟨dumpJson2 (JsonValue.obj []),
        cleanup_cache ([] ++ [(get_cache_key ("t5".toList) ("\x7b\x7d".toList) none,
          dumpJson2 (JsonValue.obj []))]),
        true⟩ :=
  json_fallback_schema [] ("t5".toList) ("\x7b\x7d".toList) none ("zz".toList)
    (JsonValue.obj []) rfl rfl (by rfl) (by rfl)

/-! ## Claim C4 -/

theorem dropWhile_append_of_forall (p : Char → Bool) (l1 l2 : Str)
    (h : ∀ c ∈ l1, p c = true) :
    (l1 ++ l2).dropWhile p = l2.dropWhile p := by
  induction l1 with
  | nil => rfl
  | cons c cs ih =>
    rw [List.cons_append, List.dropWhile_cons, if_pos (h c (by simp))]
    exact ih (fun a ha => h a (by simp [ha]))

theorem scanBraces_append (s t : Str) (count n : Nat)
    (h : scanBraces s count = some n) :
    scanBraces (s ++ t) count = some n := by
  induction s generalizing count n with
  | nil => simp [scanBraces] at h
  | cons c rest ih =>
    rw [List.cons_append]
    unfold scanBraces at h ⊢
    split_ifs at h ⊢ with h1 h2 h3
    · rcases Option.map_eq_some'.mp h with ⟨m, hm, hn⟩
      rw [ih _ _ hm]
      simpa using hn
    · exact h
    · rcases Option.map_eq_some'.mp h with ⟨m, hm, hn⟩
      rw [ih _ _ hm]
      simpa using hn
    · rcases Option.map_eq_some'.mp h with ⟨m, hm, hn⟩
      rw [ih _ _ hm]
      simpa using hn

/-- Claim C4 (amended): when the model output contains no `<|output|>`
marker and the first `{` in the output opens a balanced `{...}` region —
the output splits as `pre ++ sub ++ post` with no `{` in `pre` and `sub`
balanced — the extraction step recovers exactly that region `sub`.  (As
originally stated — for every output containing a balanced `{...}`
substring anywhere — the claim fails: see the counterexample, where the
first `{` never closes.) -/
theorem extract_recovers_balanced (output pre sub post : Str)
    (h0 : containsSeq output markerOut = false)
    (he : output = pre ++ (sub ++ post))
    (hpre : ∀ c ∈ pre, c ≠ lbrace)
    (hbal : isBalancedBraces sub = true) :
    extract_result output = sub := by
  cases sub with
  | nil => simp [isBalancedBraces] at hbal
  | cons c0 sub2 =>
    simp only [isBalancedBraces, Bool.and_eq_true, decide_eq_true_eq] at hbal
    obtain ⟨hc0, hscan⟩ := hbal
    have hdrop : output.dropWhile (fun c => c ≠ lbrace) = (c0 :: sub2) ++ post := by
      rw [he, dropWhile_append_of_forall _ pre _
        (fun c hc => by simpa using hpre c hc)]
      rw [List.cons_append, List.dropWhile_cons, if_neg (by simp [hc0])]
    have hscan2 : scanBraces ((c0 :: sub2) ++ post) 0 = some (c0 :: sub2).length :=
      scanBraces_append _ _ _ _ hscan
    simp only [extract_result, h0, Bool.false_eq_true, if_false]
    rw [hdrop]
    simp only [hscan2]
    exact List.take_left _ _

/-- Counterexample to Claim C4 as stated: the output `"{x{y}"` is not
strict JSON and contains the balanced substring `"{y}"`, but the brace
scan from the first `{` never balances, so the extraction falls back to
the stripped full output — which is not a balanced `{...}` substring at
all. -/
theorem extract_recovers_balanced_cex :
    parseJson ("\x7bx\x7by\x7d".toList) = none ∧
    "\x7bx\x7by\x7d".toList = "\x7bx".toList ++ ("\x7by\x7d".toList ++ ([] : Str)) ∧
    isBalancedBraces ("\x7by\x7d".toList) = true ∧
    extract_result ("\x7bx\x7by\x7d".toList) = "\x7bx\x7by\x7d".toList ∧
    isBalancedBraces (extract_result ("\x7bx\x7by\x7d".toList)) = false :=
  ⟨rfl, rfl, rfl, by rfl, by rfl⟩

/-- Witness for the amended Claim C4: `"ab{c}d"` yields `"{c}"`. -/
theorem extract_recovers_balanced_witness :
    extract_result ("ab\x7bc\x7dd".toList) = "\x7bc\x7d".toList :=
  extract_recovers_balanced ("ab\x7bc\x7dd".toList) ("ab".toList)
    ("\x7bc\x7d".toList) ("d".toList) rfl rfl (by decide) rfl

/-! ## Claim C3 -/

theorem filter_pdf_of_filter_not_pdf (l : List Str) :
    (l.filter (fun g => !endsWithSeq g pdfExt)).filter
      (fun g => endsWithSeq g pdfExt) = [] := by
  induction l with
  | nil => rfl
  | cons g rest ih =>
    cases h : endsWithSeq g pdfExt <;>
      simp [List.filter_cons, h, ih]

/-- Claim C3 (amended): invoked over zero PDF files, `load_resumes`
returns the sentinel `None` — it raises no error, but neither does it
build an empty index — and `upload_resumes` with an empty upload batch
does **not** surface this as a failure: it returns the success response
with `files_processed = 0` and `vector_store_created = True`.  (As stated
— the caller receives a reported error and the upload endpoint surfaces a
failure — the claim fails: see the counterexample.) -/
theorem upload_zero_pdfs (env : LoadEnv) (folder : List Str) :
    load_resumes env [] = Except.ok none ∧
    upload_resumes env folder [] =
      Except.ok (⟨0, true⟩, folder.filter (fun g => !endsWithSeq g pdfExt)) := by
  refine ⟨rfl, ?_⟩
  simp only [upload_resumes, uploadLoop]
  rw [filter_pdf_of_filter_not_pdf]
  rfl

/-- Counterexample to Claim C3 as stated: with no stored PDFs and an empty
upload batch, `load_resumes` returns `Except.ok none` — not an error — and
the upload endpoint returns the success response, not a failure. -/
theorem upload_zero_pdfs_cex :
    load_resumes trivEnv [] = Except.ok none ∧
    upload_resumes trivEnv [] [] = Except.ok (⟨0, true⟩, []) :=
  ⟨rfl, by rfl⟩

/-! ## Claim C6 -/

theorem collectDocs_eq_flatten (env : LoadEnv) (files : List Str) :
    collectDocs env files =
      (files.map (fun f =>
        match env.parseFile f with
        | Except.ok ds => ds
        | Except.error _ => [])).flatten := by
  unfold collectDocs
  have h : ∀ (fs : List Str) (acc : List Str),
      fs.foldl (fun acc f =>
        match env.parseFile f with
        | Except.ok ds => acc ++ ds
        | Except.error _ => acc) acc =
      acc ++ (fs.map (fun f =>
        match env.parseFile f with
        | Except.ok ds => ds
        | Except.error _ => [])).flatten := by
    intro fs
    induction fs with
    | nil => intro acc; simp
    | cons f rest ih =>
      intro acc
      cases hp : env.parseFile f <;>
        simp [List.foldl_cons, hp, ih, List.append_assoc]
  simpa using h files []

/-- Claim C6 (amended): in `load_resumes` over a non-empty list of PDF
files, each file whose parsing raises is skipped — the collected chunks
are exactly the concatenation of the successfully parsed files' chunks —
and the overall operation raises exactly when the embedding/vector-index
build step throws **or** the subsequent metadata-save step throws.  (As
stated — only the index build step can cause overall failure — the claim
fails: the metadata save at `data_loader.py` lines 110–112 re-raises too;
see the counterexample.) -/
theorem load_resumes_failure_modes (env : LoadEnv) (files : List Str)
    (h : files ≠ []) :
    collectDocs env files =
      (files.map (fun f =>
        match env.parseFile f with
        | Except.ok ds => ds
        | Except.error _ => [])).flatten ∧
    ((∃ e, load_resumes env files = Except.error e) ↔
      ((∃ e, env.buildIndex (collectDocs env files) = Except.error e) ∨
       ((∃ vs, env.buildIndex (collectDocs env files) = Except.ok vs) ∧
        (∃ e, env.saveMeta (collectDocs env files) = Except.error e)))) := by
  refine ⟨collectDocs_eq_flatten env files, ?_⟩
  simp only [load_resumes]
  rw [if_neg (by simpa using h)]
  cases hb : env.buildIndex (collectDocs env files) with
  | error e => simp
  | ok vs =>
    cases hs : env.saveMeta (collectDocs env files) with
    | error e2 => simp
    | ok u => simp

/-- Counterexample to Claim C6 as stated: in `badSaveEnv` the index build
succeeds on the collected chunks, yet `load_resumes` still fails overall,
because the metadata save throws. -/
theorem load_resumes_failure_modes_cex :
    badSaveEnv.buildIndex (collectDocs badSaveEnv [("r.pdf".toList)]) =
      Except.ok ["chunk".toList] ∧
    load_resumes badSaveEnv [("r.pdf".toList)] = Except.error "disk full" :=
  ⟨rfl, rfl⟩

/-- Witness for the amended Claim C6 at a concrete non-empty file list. -/
theorem load_resumes_failure_modes_witness :
    collectDocs trivEnv [("a.pdf".toList)] =
      ([("a.pdf".toList)].map (fun f =>
        match trivEnv.parseFile f with
        | Except.ok ds => ds
        | Except.error _ => [])).flatten ∧
    ((∃ e, load_resumes trivEnv [("a.pdf".toList)] = Except.error e) ↔
      ((∃ e, trivEnv.buildIndex (collectDocs trivEnv [("a.pdf".toList)]) =
          Except.error e) ∨
       ((∃ vs, trivEnv.buildIndex (collectDocs trivEnv [("a.pdf".toList)]) =
          Except.ok vs) ∧
        (∃ e, trivEnv.saveMeta (collectDocs trivEnv [("a.pdf".toList)]) =
          Except.error e)))) :=
  load_resumes_failure_modes trivEnv [("a.pdf".toList)] (by simp)

/-! ## Claim C10 -/

theorem uploadLoop_reject (env : LoadEnv) :
    ∀ (files folder : List Str) (n : Nat),
      (∃ f ∈ files, isPdfName f = false) →
      uploadLoop env folder files n =
        Except.error (400, (files.takeWhile isPdfName).foldl saveFile folder) := by
  intro files
  induction files with
  | nil => intro folder n h; simp at h
  | cons f rest ih =>
    intro folder n h
    by_cases hv : isPdfName f = true
    · have h2 : ∃ g ∈ rest, isPdfName g = false := by
        rcases h with ⟨g, hg, hgf⟩
        rcases List.mem_cons.mp hg with rfl | hg2
        · rw [hv] at hgf; cases hgf
        · exact ⟨g, hg2, hgf⟩
      unfold uploadLoop
      rw [if_pos hv, ih _ _ h2, List.takeWhile_cons, if_pos hv, List.foldl_cons]
    · unfold uploadLoop
      rw [if_neg hv, List.takeWhile_cons, if_neg hv, List.foldl_nil]

theorem mem_foldl_saveFile (g : Str) :
    ∀ (fs folder : List Str), g ∈ fs.foldl saveFile folder →
      g ∈ folder ∨ g ∈ fs := by
  intro fs
  induction fs with
  | nil => intro folder h; exact Or.inl h
  | cons f rest ih =>
    intro folder h
    rcases ih (saveFile folder f) (by simpa using h) with h1 | h1
    · unfold saveFile at h1
      rcases List.mem_append.mp h1 with h2 | h2
      · exact Or.inl (List.mem_filter.mp h2).1
      · simp only [List.mem_singleton] at h2
        subst h2
        right; simp
    · right; simp [h1]

/-- Claim C10: every `upload_resumes` call first deletes all `*.pdf` files
in the data folder; when some file in the batch has a name not ending in
`.pdf`, the endpoint raises HTTP 400 after that deletion and after saving
every file of the batch that precedes the first invalid one — the folder
at raise time is exactly the cleared folder plus that saved prefix — so a
rejected upload does not leave the previous resume set intact: any old
`*.pdf` still present was itself re-uploaded in the batch. -/
theorem upload_not_atomic (env : LoadEnv) (folder files : List Str)
    (h : ∃ f ∈ files, isPdfName f = false) :
    upload_resumes env folder files =
      Except.error (400,
        (files.takeWhile isPdfName).foldl saveFile
          (folder.filter (fun g => !endsWithSeq g pdfExt))) ∧
    ∀ g ∈ folder, endsWithSeq g pdfExt = true →
      g ∈ (files.takeWhile isPdfName).foldl saveFile
          (folder.filter (fun g => !endsWithSeq g pdfExt)) →
      g ∈ files := by
  constructor
  · unfold upload_resumes
    exact uploadLoop_reject env files _ 0 h
  · intro g hg hpdf hmem
    rcases mem_foldl_saveFile g _ _ hmem with h1 | h1
    · exfalso
      have h2 := (List.mem_filter.mp h1).2
      rw [hpdf] at h2
      simp at h2
    · exact ((List.takeWhile_prefix isPdfName).sublist.subset) h1

/-- Witness for Claim C10: uploading `["a.pdf", "bad.txt"]` over a folder
holding `old.pdf` raises 400 with only `a.pdf` in the folder. -/
theorem upload_not_atomic_witness :
    upload_resumes trivEnv [("old.pdf".toList)]
        [("a.pdf".toList), ("bad.txt".toList)] =
      Except.error (400, [("a.pdf".toList)]) := by
  have h := (upload_not_atomic trivEnv [("old.pdf".toList)]
    [("a.pdf".toList), ("bad.txt".toList)]
    ⟨("bad.txt".toList), by simp, by decide⟩).1
  rw [h]
  rfl

end JustWork
